import Mathlib

/-!
Shallow embedding of `custom_components/vzug/api/__init__.py` (the V-ZUG
device client): the retry/backoff command executor `VZugApi._command`, the
typed accessor configurations, `Program.build`, and the aggregation methods.

Modelling conventions:
* A device interaction (one HTTP GET plus body read) is a `DeviceResp`;
  a whole call sees a stream `resps : Nat → DeviceResp`, attempt `i`
  observing `resps i`.
* Python exceptions are `PyErr` values carried in `Except`.
* Backoff delays are rationals; Python doubles a float (`retry_delay *= 2.0`),
  which is exact for these magnitudes, so `ℚ` with exact doubling is faithful.
* The concurrency semaphore only bounds parallelism across calls and does not
  affect the sequential semantics of a single call, so it is not modelled.
-/

set_option autoImplicit false

namespace VZug

/-- Parsed JSON values, as returned by `aiohttp.ClientResponse.json`. -/
inductive JVal where
  | null
  | bool (b : Bool)
  | num (n : Int)
  | str (s : String)
  | arr (elems : List JVal)
  | obj (fields : List (String × JVal))

/-- Python exceptions relevant to the api module.  The first three are the
ones handled by the `except` arms of the retry loop in `VZugApi._command`;
the rest escape any `try` block there. -/
inductive PyErr where
  | clientResponseError (status : Nat)
  | clientError
  | assertionError (msg : String)
  | valueError (msg : String)
  | keyError (key : String)
  | typeError (msg : String)
  | runtimeError (msg : String)
  deriving DecidableEq

/-- Outcome of one HTTP GET against the device as observed inside `once`:
either the transport fails (`aiohttp.ClientError`), or a response arrives
with a status code, its body text and the JSON value the body parses to.
(Bodies that are not valid JSON are outside the model; no claim needs them.) -/
inductive DeviceResp where
  | netError
  | reply (status : Nat) (text : String) (json : JVal)

/-- The two `expected_type` arguments the accessors use (`dict` / `list`). -/
inductive Shape where
  | dict
  | list
  deriving DecidableEq

/-- `_TRUSTED_STATUS_CODES`: status codes that are not counted as
false-positives. -/
def TRUSTED_STATUS_CODES : List Nat := [401, 404]

/-- `isinstance(data, expected_type)` for the two shapes in use. -/
def isinstance : JVal → Shape → Bool
  | .obj _, .dict => true
  | .arr _, .list => true
  | _, _ => false

/-- Python `len` on parsed JSON values; `none` when the value has no `len`
(in which case `len(data)` raises `TypeError`). -/
def pyLen : JVal → Option Nat
  | .str s => some s.length
  | .arr elems => some elems.length
  | .obj fields => some fields.length
  | _ => none

/-- The `reject_empty` check: `assert len(data) > 0` (evaluating `len` first,
so a value without `len` raises `TypeError`, not `AssertionError`). -/
def checkEmpty (reject_empty : Bool) (data : JVal) : Except PyErr JVal :=
  if reject_empty then
    match pyLen data with
    | some n =>
      if 0 < n then .ok data else .error (.assertionError "empty response rejected")
    | none => .error (.typeError "object has no len")
  else .ok data

/-- One attempt of `VZugApi._command` (its inner `once` coroutine):
`raise_for_status` for a status ≥ 400, the body text when `raw`, otherwise
the parsed JSON after the null-as-empty-list quirk, the `expected_type`
assertion and the `reject_empty` assertion.  A raw result is encoded as
`JVal.str`. -/
def once (raw : Bool) (expected_type : Option Shape) (reject_empty : Bool) :
    DeviceResp → Except PyErr JVal
  | .netError => .error .clientError
  | .reply status text json =>
    if 400 ≤ status then .error (.clientResponseError status)
    else if raw then .ok (.str text)
    else
      let data : JVal :=
        match expected_type, json with
        | some .list, .null => .arr []
        | _, j => j
      match expected_type with
      | some sh =>
        if isinstance data sh then checkEmpty reject_empty data
        else .error (.assertionError "data type mismatch")
      | none => checkEmpty reject_empty data

/-- The per-call configuration of `VZugApi._command`; field defaults mirror
the Python keyword defaults. -/
structure CmdCfg where
  component : String
  command : String
  params : List (String × String) := []
  raw : Bool := false
  expected_type : Option Shape := none
  reject_empty : Bool := false
  attempts : Nat := 5
  retry_delay : ℚ := 1/2
  value_on_err : Option (Unit → JVal) := none

/-- How the `for _ in range(attempts)` loop of `_command` ended. -/
inductive LoopExit where
  | success (v : JVal)
  | raised (e : PyErr)
  | exhausted (last_exc : PyErr)

/-- The retry loop of `VZugApi._command`.  `i` indexes the next attempt,
`remaining` counts the loop iterations left, `retry_delay` is the current
backoff delay, `last_exc` the last recorded failure and `sleeps` the backoff
sleeps performed so far, in order.  A trusted-status response error breaks
out before sleeping; any other handled failure sleeps the current delay,
doubles it and moves to the next iteration; an unhandled exception
propagates at once. -/
def commandLoop (cfg : CmdCfg) (resps : Nat → DeviceResp) :
    Nat → Nat → ℚ → PyErr → List ℚ → LoopExit × Nat × List ℚ
  | i, 0, _, last_exc, sleeps => (.exhausted last_exc, i, sleeps)
  | i, remaining + 1, retry_delay, _, sleeps =>
    match once cfg.raw cfg.expected_type cfg.reject_empty (resps i) with
    | .ok v => (.success v, i + 1, sleeps)
    | .error exc =>
      match exc with
      | .clientResponseError status =>
        if status ∈ TRUSTED_STATUS_CODES then
          (.exhausted (.clientResponseError status), i + 1, sleeps)
        else
          commandLoop cfg resps (i + 1) remaining (retry_delay * 2)
            (.clientResponseError status) (sleeps ++ [retry_delay])
      | .clientError =>
        commandLoop cfg resps (i + 1) remaining (retry_delay * 2)
          .clientError (sleeps ++ [retry_delay])
      | .assertionError msg =>
        commandLoop cfg resps (i + 1) remaining (retry_delay * 2)
          (.assertionError msg) (sleeps ++ [retry_delay])
      | e => (.raised e, i + 1, sleeps)

/-- What one call of `_command` produces: the returned value or the raised
exception, together with how many HTTP attempts were issued and which
backoff sleeps were performed. -/
structure RunOut where
  result : Except PyErr JVal
  attemptsMade : Nat
  sleeps : List ℚ

/-- `VZugApi._command`: run the retry loop starting from the configured
attempt budget and initial delay (`last_exc` initialised to
`ValueError("no attempts made")`), then apply the `value_on_err` fallback on
exhaustion, or re-raise the last recorded failure. -/
def runCommand (cfg : CmdCfg) (resps : Nat → DeviceResp) : RunOut :=
  let out := commandLoop cfg resps 0 cfg.attempts cfg.retry_delay
    (.valueError "no attempts made") []
  { result :=
      match out.1 with
      | .success v => .ok v
      | .raised e => .error e
      | .exhausted last_exc =>
        match cfg.value_on_err with
        | some f => .ok (f ())
        | none => .error last_exc
    attemptsMade := out.2.1
    sleeps := out.2.2 }

/-- The attempt outcome is a failure handled by one of the loop's `except`
arms (`aiohttp.ClientResponseError`, `aiohttp.ClientError`,
`AssertionError`). -/
def caughtFailure (cfg : CmdCfg) (resp : DeviceResp) : Prop :=
  (∃ status, once cfg.raw cfg.expected_type cfg.reject_empty resp =
    .error (.clientResponseError status)) ∨
  once cfg.raw cfg.expected_type cfg.reject_empty resp = .error .clientError ∨
  (∃ msg, once cfg.raw cfg.expected_type cfg.reject_empty resp =
    .error (.assertionError msg))

/-- Python dict assignment `d[key] = v`: overwrite in place when the key is
present (keeping its position), else append. -/
def pyDictSet {V : Type} (d : List (String × V)) (key : String) (v : V) :
    List (String × V) :=
  if d.any (fun p => p.1 == key) then
    d.map (fun p => if p.1 == key then (key, v) else p)
  else d ++ [(key, v)]

/-- Escape quotes and backslashes in a JSON string literal (other escapes are
outside the model). -/
def jsonEscape (s : String) : String :=
  s.foldl (fun acc c =>
    if c == '\\' then acc ++ "\\\\"
    else if c == '"' then acc ++ "\\\"" else acc.push c) ""

mutual
/-- `json.dumps` with its default separators. -/
def jsonDumps : JVal → String
  | .null => "null"
  | .bool true => "true"
  | .bool false => "false"
  | .num n => toString n
  | .str s => "\"" ++ jsonEscape s ++ "\""
  | .arr elems => "[" ++ jsonDumpsList elems ++ "]"
  | .obj fields => "\x7b" ++ jsonDumpsFields fields ++ "\x7d"

/-- Serialize the elements of a JSON array, comma-separated. -/
def jsonDumpsList : List JVal → String
  | [] => ""
  | [v] => jsonDumps v
  | v :: rest => jsonDumps v ++ ", " ++ jsonDumpsList rest

/-- Serialize the entries of a JSON object, comma-separated. -/
def jsonDumpsFields : List (String × JVal) → String
  | [] => ""
  | [(k, v)] => "\"" ++ jsonEscape k ++ "\": " ++ jsonDumps v
  | (k, v) :: rest =>
    "\"" ++ jsonEscape k ++ "\": " ++ jsonDumps v ++ ", " ++ jsonDumpsFields rest
end

/-! ### Typed accessors

Each of the following gives the `_command` configuration the corresponding
`VZugApi` method passes (the method body is a single `_command` call unless
noted).  `value_on_err=(lambda: X) if default_on_error else None` becomes an
`Option` of a constant function. -/

/-- `VZugApi.get_mac_address`. -/
def get_mac_address (default_on_error : Bool) : CmdCfg :=
  { component := "ai", command := "getMacAddress", raw := true,
    value_on_err := if default_on_error then some (fun _ => .str "") else none }

/-- `VZugApi.get_model_description`. -/
def get_model_description (default_on_error : Bool) : CmdCfg :=
  { component := "ai", command := "getModelDescription", raw := true,
    value_on_err := if default_on_error then some (fun _ => .str "") else none }

/-- `VZugApi.get_device_status` (`DeviceStatus()` is an empty dict). -/
def get_device_status (default_on_error : Bool) : CmdCfg :=
  { component := "ai", command := "getDeviceStatus", expected_type := some .dict,
    value_on_err := if default_on_error then some (fun _ => .obj []) else none }

/-- `VZugApi.get_update_status` (`UpdateStatus()` is an empty dict). -/
def get_update_status (default_on_error : Bool) : CmdCfg :=
  { component := "ai", command := "getUpdateStatus", expected_type := some .dict,
    value_on_err := if default_on_error then some (fun _ => .obj []) else none }

/-- `VZugApi.check_for_updates`. -/
def check_for_updates : CmdCfg :=
  { component := "ai", command := "checkUpdate", raw := true, attempts := 2 }

/-- `VZugApi.do_ai_update` (all `_command` keywords left at their defaults). -/
def do_ai_update : CmdCfg :=
  { component := "ai", command := "doAIUpdate" }

/-- `VZugApi.do_hhg_update` (all `_command` keywords left at their defaults). -/
def do_hhg_update : CmdCfg :=
  { component := "ai", command := "doHHGUpdate" }

/-- `VZugApi.get_last_push_notifications`. -/
def get_last_push_notifications (default_on_error : Bool) : CmdCfg :=
  { component := "ai", command := "getLastPUSHNotifications",
    expected_type := some .list,
    value_on_err := if default_on_error then some (fun _ => .arr []) else none }

/-- `VZugApi.list_categories` (`reject_empty=False` is explicit in the
source: empty category lists are legitimate). -/
def list_categories : CmdCfg :=
  { component := "hh", command := "getCategories", expected_type := some .list,
    reject_empty := false }

/-- `VZugApi.get_category`. -/
def get_category (value : String) : CmdCfg :=
  { component := "hh", command := "getCategory", params := [("value", value)],
    expected_type := some .dict }

/-- `VZugApi.list_commands`. -/
def list_commands (value : String) : CmdCfg :=
  { component := "hh", command := "getCommands", params := [("value", value)],
    expected_type := some .list }

/-- `VZugApi.get_command`. -/
def get_command (value : String) : CmdCfg :=
  { component := "hh", command := "getCommand", params := [("value", value)],
    expected_type := some .dict }

/-- `VZugApi.set_command` (`command=f"set{command}"`). -/
def set_command (command : String) (value : String) : CmdCfg :=
  { component := "hh", command := "set" ++ command, params := [("value", value)],
    raw := true, attempts := 2 }

/-- `VZugApi.do_command_action` (`command=f"do{command}"`). -/
def do_command_action (command : String) : CmdCfg :=
  { component := "hh", command := "do" ++ command, raw := true, attempts := 2 }

/-- `VZugApi.get_hh_fw_version` (`HhFwVersion()` is an empty dict). -/
def get_hh_fw_version (default_on_error : Bool) : CmdCfg :=
  { component := "hh", command := "getFWVersion", expected_type := some .dict,
    value_on_err := if default_on_error then some (fun _ => .obj []) else none }

/-- `VZugApi.get_ai_fw_version` (`AiFwVersion()` is an empty dict). -/
def get_ai_fw_version (default_on_error : Bool) : CmdCfg :=
  { component := "ai", command := "getFWVersion", expected_type := some .dict,
    value_on_err := if default_on_error then some (fun _ => .obj []) else none }

/-- The `_command` configuration of `VZugApi.get_zh_mode`. -/
def get_zh_mode (default_on_error : Bool) : CmdCfg :=
  { component := "hh", command := "getZHMode", expected_type := some .dict,
    value_on_err :=
      if default_on_error then some (fun _ => .obj [("value", .num (-1))])
      else none }

/-- `VZugApi.get_eco_info` (`EcoInfo()` is an empty dict). -/
def get_eco_info (default_on_error : Bool) : CmdCfg :=
  { component := "hh", command := "getEcoInfo", expected_type := some .dict,
    value_on_err := if default_on_error then some (fun _ => .obj []) else none }

/-- `VZugApi.get_device_info`. -/
def get_device_info : CmdCfg :=
  { component := "hh", command := "getDeviceInfo", expected_type := some .dict }

/-- The `_command` configuration of `VZugApi.get_program`. -/
def get_program : CmdCfg :=
  { component := "hh", command := "getProgram", expected_type := some .list }

/-- `VZugApi.set_program`: `options["id"] = program_id`, then `_command` with
`value=json.dumps(options)`.  (`if not options: options = {}` replaces a
missing or empty dict by a fresh one; passing the possibly-empty entry list
directly is key-for-key the same.) -/
def set_program (program_id : Int) (options : List (String × JVal)) : CmdCfg :=
  let options := pyDictSet options "id" (.num program_id)
  { component := "hh", command := "setProgram",
    params := [("value", jsonDumps (.obj options))], raw := true, attempts := 2 }

/-- `VZugApi.get_all_program_ids`. -/
def get_all_program_ids : CmdCfg :=
  { component := "hh", command := "getAllProgramIds", expected_type := some .list }

/-! ### `Program.build` -/

/-- The `ProgramInfo` key set
(`ProgramInfo.__required_keys__ | ProgramInfo.__optional_keys__`; a frozen
set in Python — the construction below is insensitive to its order). -/
def ProgramInfoKeys : List String := ["id", "name", "status", "stepIds"]

/-- Python `d[key]` lookup on a dict represented as its entry list. -/
def dictLookup (key : String) : List (String × JVal) → Option JVal
  | [] => none
  | p :: rest => if p.1 == key then some p.2 else dictLookup key rest

/-- Python `del d[key]`: drop the entry with that key. -/
def dictDelete (key : String) (d : List (String × JVal)) : List (String × JVal) :=
  d.filter (fun p => !(p.1 == key))

/-- The keys of a dict, in order. -/
def dictKeys (d : List (String × JVal)) : List String := d.map Prod.fst

/-- The `Program` dataclass: `info` holds the extracted `ProgramInfo` fields,
`options` the remaining raw fields. -/
structure Program where
  info : List (String × JVal)
  options : List (String × JVal)

/-- The loop of `Program.build`: for each `ProgramInfo` key, try to move the
entry from `options` to `info` (`LookupError` is swallowed, so an absent key
is skipped). -/
def extractInfo : List String → List (String × JVal) × List (String × JVal) →
    List (String × JVal) × List (String × JVal)
  | [], acc => acc
  | key :: keys, (info, options) =>
    match dictLookup key options with
    | some v => extractInfo keys (info ++ [(key, v)], dictDelete key options)
    | none => extractInfo keys (info, options)

/-- `Program.build`: split one flat dict into `info` (the `ProgramInfo` keys
present) and `options` (the rest), starting from `info = {}` and
`options = raw.copy()`. -/
def Program.build (raw : List (String × JVal)) : Program :=
  let acc := extractInfo ProgramInfoKeys ([], raw)
  { info := acc.1, options := acc.2 }

/-! ### `get_zh_mode` unwrap and the aggregates -/

/-- Python subscript `data[key]` on a parsed JSON value: `KeyError` when the
key is absent from the object. -/
def pyGetItem (data : JVal) (key : String) : Except PyErr JVal :=
  match data with
  | .obj fields =>
    match dictLookup key fields with
    | some v => .ok v
    | none => .error (.keyError key)
  | _ => .error (.typeError "value is not subscriptable")

/-- `VZugApi.get_zh_mode`: run the command and then unwrap `data["value"]`.
The unwrap happens after `_command` has returned, so it is outside the reach
of `value_on_err`. -/
def run_get_zh_mode (default_on_error : Bool) (resps : Nat → DeviceResp) :
    Except PyErr JVal :=
  match (runCommand (get_zh_mode default_on_error) resps).result with
  | .error e => .error e
  | .ok data => pyGetItem data "value"

/-- The four sub-fetches `aggregate_state` performs, in source order. -/
inductive FetchKind where
  | zhMode
  | deviceStatus
  | pushNotifications
  | ecoInfo
  deriving DecidableEq

/-- The `AggState` dataclass (the `device_fetched_at` wall-clock stamp is
outside the model). -/
structure AggState where
  zh_mode : JVal
  device : JVal
  notifications : JVal
  eco_info : JVal

/-- `VZugApi.aggregate_state`, with the order in which sub-fetches complete
made explicit as a trace.  Every sub-fetch is awaited before the next one
starts; an exception aborts the remainder.  The zh-mode fetch is issued
first with a hard-coded `default_on_error=True`, as in the source. -/
def aggregate_state (env : FetchKind → Nat → DeviceResp) (default_on_error : Bool) :
    Except PyErr AggState × List FetchKind :=
  match run_get_zh_mode true (env .zhMode) with
  | .error e => (.error e, [.zhMode])
  | .ok zh =>
    match (runCommand (get_device_status default_on_error) (env .deviceStatus)).result with
    | .error e => (.error e, [.zhMode, .deviceStatus])
    | .ok device =>
      match (runCommand (get_last_push_notifications default_on_error)
          (env .pushNotifications)).result with
      | .error e => (.error e, [.zhMode, .deviceStatus, .pushNotifications])
      | .ok notifications =>
        match (runCommand (get_eco_info default_on_error) (env .ecoInfo)).result with
        | .error e =>
          (.error e, [.zhMode, .deviceStatus, .pushNotifications, .ecoInfo])
        | .ok eco =>
          (.ok { zh_mode := zh, device := device, notifications := notifications,
                 eco_info := eco },
           [.zhMode, .deviceStatus, .pushNotifications, .ecoInfo])

/-- The device endpoints `aggregate_config` draws from: attempt streams for
`list_categories`, and per-key streams for `get_category`, `list_commands`
and `get_command`. -/
structure ConfigEnv where
  categories : Nat → DeviceResp
  category : String → Nat → DeviceResp
  commands : String → Nat → DeviceResp
  command : String → Nat → DeviceResp

/-- The `AggCategory` dataclass. -/
structure AggCategory where
  key : String
  description : String
  commands : List (String × JVal)

/-- `VZugApi.aggregate_config`.  The source assigns
`category_raw, command_keys = asyncio.gather(self.get_category(...),
self.list_commands(...))` without `await`: tuple-unpacking the still-pending
gather future yields the future itself once and then raises
`RuntimeError` ("await wasn't used with future", CPython asyncio), so the
first iteration of the category loop raises and no category entry is ever
built.  With no categories the loop body never runs and the empty tree is
returned. -/
def aggregate_config (env : ConfigEnv) : Except PyErr (List (String × AggCategory)) :=
  match (runCommand list_categories env.categories).result with
  | .error e => .error e
  | .ok (.arr []) => .ok []
  | .ok (.arr (_ :: _)) => .error (.runtimeError "await was not used with future")
  | .ok _ => .error (.typeError "value is not iterable")

/-- The device of the C4 scenario: categories `["c1","c2"]`, category `c1`
with command list `["x"]`, category `c2` with an empty command list; every
request is answered with HTTP 200. -/
def c4Env : ConfigEnv :=
  { categories := fun _ => .reply 200 "" (.arr [.str "c1", .str "c2"])
    category := fun key _ => .reply 200 "" (.obj [("description", .str key)])
    commands := fun key _ =>
      .reply 200 "" (if key == "c1" then .arr [.str "x"] else .arr [])
    command := fun _ _ => .reply 200 "" (.obj [("type", .str "action")]) }

/-! ### Heap model for the parameter dict -/

/-- A store of Python dict objects addressed by reference, modelling the
aliasing relevant to `_command`: `params.copy()` allocates a fresh dict, and
item assignment mutates only the referenced dict. -/
structure Heap where
  mem : Nat → List (String × String)
  next : Nat

/-- Read the dict a reference points to. -/
def Heap.get (h : Heap) (r : Nat) : List (String × String) := h.mem r

/-- Overwrite the dict a reference points to. -/
def Heap.write (h : Heap) (r : Nat) (d : List (String × String)) : Heap :=
  { mem := fun i => if i = r then d else h.mem i, next := h.next }

/-- Allocate a fresh dict, returning the new heap and its reference. -/
def Heap.alloc (h : Heap) (d : List (String × String)) : Heap × Nat :=
  ({ mem := fun i => if i = h.next then d else h.mem i, next := h.next + 1 },
   h.next)

/-- The parameter-building prologue of `VZugApi._command`:
`final_params = params.copy()`, then
`final_params["command"] = command` and
`final_params["_"] = str(int(time.time()))`, on the explicit heap. -/
def commandParams (h : Heap) (paramsRef : Nat) (command : String) (now : Nat) :
    Heap × Nat :=
  let alloc := h.alloc (h.get paramsRef)
  let h1 := alloc.1
  let finalRef := alloc.2
  let h2 := h1.write finalRef (pyDictSet (h1.get finalRef) "command" command)
  let h3 := h2.write finalRef (pyDictSet (h2.get finalRef) "_" (toString now))
  (h3, finalRef)

/-! ### Fixed inputs used to instantiate theorems -/

/-- A configuration with an expected shape and no fallback (the one
`get_device_status(default_on_error=False)` passes). -/
def sampleCfg : CmdCfg :=
  { component := "ai", command := "getDeviceStatus", expected_type := some .dict }

/-- A device that never answers (every attempt raises
`aiohttp.ClientError`). -/
def failResps : Nat → DeviceResp := fun _ => .netError

/-- A device whose fetches always succeed with an object body carrying a
`value` field. -/
def okEnv : FetchKind → Nat → DeviceResp :=
  fun _ _ => .reply 200 "" (.obj [("value", .num 1)])

/-! ### Properties of the retry loop -/

/-- Prepending one backoff sleep at the current delay to a doubled-delay
geometric tail gives the geometric sequence started one step earlier. -/
theorem sleeps_geom_cons (delay : ℚ) (m : Nat) :
    delay :: (List.range m).map (fun k => delay * 2 * 2 ^ k) =
      (List.range (m + 1)).map (fun k => delay * 2 ^ k) := by
  rw [List.range_succ_eq_map, List.map_cons, List.map_map]
  congr 1
  · simp
  · apply List.map_congr_left
    intro k _
    simp only [Function.comp_apply, pow_succ]
    ring

/-- Shape of every loop run: some number `n ≤ remaining` of attempts is
issued, and the sleeps performed extend the incoming ones by a geometric
sequence starting at the current delay. -/
theorem commandLoop_shape (cfg : CmdCfg) (resps : Nat → DeviceResp) :
    ∀ (remaining i : Nat) (delay : ℚ) (last0 : PyErr) (sleeps0 : List ℚ),
    ∃ ev n m,
      commandLoop cfg resps i remaining delay last0 sleeps0 =
        (ev, i + n, sleeps0 ++ (List.range m).map (fun k => delay * 2 ^ k)) ∧
      n ≤ remaining := by
  intro remaining
  induction remaining with
  | zero =>
    intro i delay last0 sleeps0
    exact ⟨.exhausted last0, 0, 0, by simp [commandLoop], Nat.le_refl 0⟩
  | succ r ih =>
    intro i delay last0 sleeps0
    cases hres : once cfg.raw cfg.expected_type cfg.reject_empty (resps i) with
    | ok v =>
      refine ⟨.success v, 1, 0, ?_, by omega⟩
      simp [commandLoop, hres]
    | error exc =>
      cases exc with
      | clientResponseError status =>
        by_cases hs : status ∈ TRUSTED_STATUS_CODES
        · refine ⟨.exhausted (.clientResponseError status), 1, 0, ?_, by omega⟩
          simp [commandLoop, hres, hs]
        · obtain ⟨ev, n, m, heq, hn⟩ :=
            ih (i + 1) (delay * 2) (.clientResponseError status) (sleeps0 ++ [delay])
          refine ⟨ev, n + 1, m + 1, ?_, by omega⟩
          simp only [commandLoop, hres]
          rw [if_neg hs, heq, List.append_assoc, List.singleton_append,
            sleeps_geom_cons]
          have harith : i + 1 + n = i + (n + 1) := by omega
          rw [harith]
      | clientError =>
        obtain ⟨ev, n, m, heq, hn⟩ :=
          ih (i + 1) (delay * 2) .clientError (sleeps0 ++ [delay])
        refine ⟨ev, n + 1, m + 1, ?_, by omega⟩
        simp only [commandLoop, hres]
        rw [heq, List.append_assoc, List.singleton_append, sleeps_geom_cons]
        have harith : i + 1 + n = i + (n + 1) := by omega
        rw [harith]
      | assertionError msg =>
        obtain ⟨ev, n, m, heq, hn⟩ :=
          ih (i + 1) (delay * 2) (.assertionError msg) (sleeps0 ++ [delay])
        refine ⟨ev, n + 1, m + 1, ?_, by omega⟩
        simp only [commandLoop, hres]
        rw [heq, List.append_assoc, List.singleton_append, sleeps_geom_cons]
        have harith : i + 1 + n = i + (n + 1) := by omega
        rw [harith]
      | valueError msg =>
        exact ⟨.raised (.valueError msg), 1, 0, by simp [commandLoop, hres], by omega⟩
      | keyError k =>
        exact ⟨.raised (.keyError k), 1, 0, by simp [commandLoop, hres], by omega⟩
      | typeError msg =>
        exact ⟨.raised (.typeError msg), 1, 0, by simp [commandLoop, hres], by omega⟩
      | runtimeError msg =>
        exact ⟨.raised (.runtimeError msg), 1, 0, by simp [commandLoop, hres], by omega⟩

/-- When every attempt fails with a failure the loop handles, the loop exits
through its `exhausted` branch, and the recorded `last_exc` is the failure
of the last attempt issued (or the incoming `last0` when no iteration
ran). -/
theorem commandLoop_all_fail (cfg : CmdCfg) (resps : Nat → DeviceResp)
    (hfail : ∀ j, caughtFailure cfg (resps j)) :
    ∀ (remaining i : Nat) (delay : ℚ) (last0 : PyErr) (sleeps0 : List ℚ),
    ∃ n e sl,
      commandLoop cfg resps i remaining delay last0 sleeps0 =
        (.exhausted e, i + n, sl) ∧
      (0 < remaining → 0 < n) ∧
      ((n = 0 ∧ e = last0) ∨
        (0 < n ∧ once cfg.raw cfg.expected_type cfg.reject_empty
          (resps (i + n - 1)) = .error e)) := by
  intro remaining
  induction remaining with
  | zero =>
    intro i delay last0 sleeps0
    exact ⟨0, last0, sleeps0, by simp [commandLoop], by omega, Or.inl ⟨rfl, rfl⟩⟩
  | succ r ih =>
    intro i delay last0 sleeps0
    rcases hfail i with ⟨status, hres⟩ | hres | ⟨msg, hres⟩
    · by_cases hs : status ∈ TRUSTED_STATUS_CODES
      · refine ⟨1, .clientResponseError status, sleeps0, ?_, fun _ => Nat.one_pos,
          Or.inr ⟨Nat.one_pos, ?_⟩⟩
        · simp [commandLoop, hres, hs]
        · simpa using hres
      · obtain ⟨n, e, sl, heq, _, hdisj⟩ :=
          ih (i + 1) (delay * 2) (.clientResponseError status) (sleeps0 ++ [delay])
        refine ⟨n + 1, e, sl, ?_, fun _ => Nat.succ_pos n,
          Or.inr ⟨Nat.succ_pos n, ?_⟩⟩
        · simp only [commandLoop, hres]
          rw [if_neg hs, heq]
          have harith : i + 1 + n = i + (n + 1) := by omega
          rw [harith]
        · rcases hdisj with ⟨hn0, he0⟩ | ⟨hpos, honce⟩
          · subst hn0
            subst he0
            simpa using hres
          · have harith : i + (n + 1) - 1 = i + 1 + n - 1 := by omega
            rw [harith]
            exact honce
    · obtain ⟨n, e, sl, heq, _, hdisj⟩ :=
        ih (i + 1) (delay * 2) .clientError (sleeps0 ++ [delay])
      refine ⟨n + 1, e, sl, ?_, fun _ => Nat.succ_pos n,
        Or.inr ⟨Nat.succ_pos n, ?_⟩⟩
      · simp only [commandLoop, hres]
        rw [heq]
        have harith : i + 1 + n = i + (n + 1) := by omega
        rw [harith]
      · rcases hdisj with ⟨hn0, he0⟩ | ⟨hpos, honce⟩
        · subst hn0
          subst he0
          simpa using hres
        · have harith : i + (n + 1) - 1 = i + 1 + n - 1 := by omega
          rw [harith]
          exact honce
    · obtain ⟨n, e, sl, heq, _, hdisj⟩ :=
        ih (i + 1) (delay * 2) (.assertionError msg) (sleeps0 ++ [delay])
      refine ⟨n + 1, e, sl, ?_, fun _ => Nat.succ_pos n,
        Or.inr ⟨Nat.succ_pos n, ?_⟩⟩
      · simp only [commandLoop, hres]
        rw [heq]
        have harith : i + 1 + n = i + (n + 1) := by omega
        rw [harith]
      · rcases hdisj with ⟨hn0, he0⟩ | ⟨hpos, honce⟩
        · subst hn0
          subst he0
          simpa using hres
        · have harith : i + (n + 1) - 1 = i + 1 + n - 1 := by omega
          rw [harith]
          exact honce

/-- Claim C1: if a default-value producer (`value_on_err`) is supplied and
every attempt fails with a handled failure, `_command` returns the
producer's value and raises nothing; with no producer it raises the last
recorded failure, namely the error of the final attempt issued. -/
theorem claim_C1_default_fallback_or_raise (cfg : CmdCfg)
    (resps : Nat → DeviceResp) (ha : 0 < cfg.attempts)
    (hfail : ∀ j, caughtFailure cfg (resps j)) :
    (∀ f, cfg.value_on_err = some f →
      (runCommand cfg resps).result = .ok (f ())) ∧
    (cfg.value_on_err = none →
      ∃ e, once cfg.raw cfg.expected_type cfg.reject_empty
          (resps ((runCommand cfg resps).attemptsMade - 1)) = .error e ∧
        (runCommand cfg resps).result = .error e) := by
  obtain ⟨n, e, sl, heq, hpos, hdisj⟩ :=
    commandLoop_all_fail cfg resps hfail cfg.attempts 0 cfg.retry_delay
      (.valueError "no attempts made") []
  have hn : 0 < n := hpos ha
  have honce : once cfg.raw cfg.expected_type cfg.reject_empty (resps (n - 1)) =
      .error e := by
    rcases hdisj with ⟨h0, _⟩ | ⟨_, h⟩
    · exact absurd h0 (by omega)
    · simpa using h
  have hA : (runCommand cfg resps).attemptsMade = n := by
    simp [runCommand, heq]
  constructor
  · intro f hf
    simp [runCommand, heq, hf]
  · intro hnone
    exact ⟨e, by rw [hA]; exact honce, by simp [runCommand, heq, hnone]⟩

/-- Claim C1 instantiated: `get_mac_address(default_on_error=True)` against
a device that never answers returns the empty string. -/
theorem claim_C1_witness :
    0 < (get_mac_address true).attempts ∧
    (runCommand (get_mac_address true) failResps).result = .ok (.str "") := by
  have h := claim_C1_default_fallback_or_raise (get_mac_address true) failResps
    (by decide) (fun j => Or.inr (Or.inl rfl))
  exact ⟨by decide, h.1 (fun _ => .str "") rfl⟩

/-- Claim C2: a first attempt failing with a trusted HTTP status ends the
call after exactly one attempt, with no backoff sleep; in particular
`get_mac_address` with `default_on_error=True` against a device answering
HTTP 404 returns the empty string after exactly one attempt. -/
theorem claim_C2_trusted_status_single_attempt (cfg : CmdCfg)
    (resps : Nat → DeviceResp) (status : Nat) (ha : 0 < cfg.attempts)
    (h0 : once cfg.raw cfg.expected_type cfg.reject_empty (resps 0) =
      .error (.clientResponseError status))
    (hs : status ∈ TRUSTED_STATUS_CODES) :
    ((runCommand cfg resps).attemptsMade = 1 ∧
      (runCommand cfg resps).sleeps = []) ∧
    ∀ text json,
      (runCommand (get_mac_address true) (fun _ => .reply 404 text json)).result =
        .ok (.str "") ∧
      (runCommand (get_mac_address true)
        (fun _ => .reply 404 text json)).attemptsMade = 1 := by
  obtain ⟨r, hr⟩ : ∃ r, cfg.attempts = r + 1 := ⟨cfg.attempts - 1, by omega⟩
  have hloop : commandLoop cfg resps 0 cfg.attempts cfg.retry_delay
      (.valueError "no attempts made") [] =
      (.exhausted (.clientResponseError status), 1, []) := by
    rw [hr]
    simp [commandLoop, h0, hs]
  refine ⟨⟨by simp [runCommand, hloop], by simp [runCommand, hloop]⟩, ?_⟩
  intro text json
  exact ⟨rfl, rfl⟩

/-- Claim C2 instantiated at a concrete 404 reply on the `getMacAddress`
configuration. -/
theorem claim_C2_witness :
    ((runCommand (get_mac_address true)
        (fun _ => .reply 404 "nope" .null)).attemptsMade = 1 ∧
      (runCommand (get_mac_address true)
        (fun _ => .reply 404 "nope" .null)).sleeps = []) ∧
    ∀ text json,
      (runCommand (get_mac_address true) (fun _ => .reply 404 text json)).result =
        .ok (.str "") ∧
      (runCommand (get_mac_address true)
        (fun _ => .reply 404 text json)).attemptsMade = 1 :=
  claim_C2_trusted_status_single_attempt (get_mac_address true)
    (fun _ => .reply 404 "nope" .null) 404 (by decide) rfl (by decide)

/-- Claim C3: every invocation issues at most `attempts` HTTP attempts, and
the backoff sleeps form the geometric sequence that starts at the initial
retry delay and exactly doubles from each retry to the next. -/
theorem claim_C3_attempt_bound_and_backoff (cfg : CmdCfg)
    (resps : Nat → DeviceResp) :
    (runCommand cfg resps).attemptsMade ≤ cfg.attempts ∧
    (∃ m, (runCommand cfg resps).sleeps =
      (List.range m).map (fun k => cfg.retry_delay * 2 ^ k)) ∧
    ((runCommand cfg resps).sleeps ≠ [] →
      (runCommand cfg resps).sleeps[0]? = some cfg.retry_delay) ∧
    (∀ k : Nat, k + 1 < (runCommand cfg resps).sleeps.length →
      (runCommand cfg resps).sleeps[k + 1]? =
        ((runCommand cfg resps).sleeps[k]?).map (fun d => d * 2)) := by
  obtain ⟨ev, n, m, heq, hn⟩ :=
    commandLoop_shape cfg resps cfg.attempts 0 cfg.retry_delay
      (.valueError "no attempts made") []
  have hA : (runCommand cfg resps).attemptsMade = n := by
    simp [runCommand, heq]
  have hS : (runCommand cfg resps).sleeps =
      (List.range m).map (fun k => cfg.retry_delay * 2 ^ k) := by
    simp [runCommand, heq]
  refine ⟨hA ▸ hn, ⟨m, hS⟩, ?_, ?_⟩
  · rw [hS]
    intro hne
    have hm : 0 < m := by
      rcases Nat.eq_zero_or_pos m with h | h
      · subst h
        simp at hne
      · exact h
    simp [List.getElem?_map, List.getElem?_range, hm]
  · rw [hS]
    intro k hk
    have hk1 : k + 1 < m := by simpa using hk
    have hk0 : k < m := by omega
    simp [List.getElem?_map, List.getElem?_range, hk1, hk0, pow_succ]
    ring

/-- Claim C3 instantiated: the all-failing device under the default budget
issues five attempts, within budget, with the geometric backoff. -/
theorem claim_C3_witness :
    (runCommand sampleCfg failResps).attemptsMade = 5 ∧
    (runCommand sampleCfg failResps).attemptsMade ≤ sampleCfg.attempts ∧
    ∃ m, (runCommand sampleCfg failResps).sleeps =
      (List.range m).map (fun k => sampleCfg.retry_delay * 2 ^ k) := by
  have h := claim_C3_attempt_bound_and_backoff sampleCfg failResps
  exact ⟨by decide, h.1, h.2.1⟩

/-- Claim C4 (against the source as written): for the device reporting
categories `["c1","c2"]` with `c1` commands `["x"]` and `c2` none,
`aggregate_config` does not build the two-category tree — the missing
`await` on `asyncio.gather` makes the first iteration of the category loop
raise `RuntimeError`.  The first conjunct checks the scenario's category
listing really is `["c1","c2"]`. -/
theorem claim_C4_aggregate_config_raises :
    (runCommand list_categories c4Env.categories).result =
      .ok (.arr [.str "c1", .str "c2"]) ∧
    aggregate_config c4Env =
      .error (.runtimeError "await was not used with future") :=
  ⟨rfl, rfl⟩

/-- Claim C5 counterexample: `do_ai_update` leaves the attempt budget at the
`_command` default of 5, not 2 (and so does `do_hhg_update`). -/
theorem claim_C5_counterexample :
    do_ai_update.attempts = 5 ∧ ¬ do_ai_update.attempts = 2 ∧
    do_hhg_update.attempts = 5 ∧ ¬ do_hhg_update.attempts = 2 := by
  refine ⟨rfl, by decide, rfl, by decide⟩

/-- Claim C5 as amended: among the write operations, `set_command`,
`do_command_action` and `set_program` use an attempt budget of 2 while
`do_ai_update` and `do_hhg_update` keep the default budget of 5; none of
the five supplies a default-value producer, so a write whose attempts all
fail surfaces as a raised error and never returns a fabricated result. -/
theorem claim_C5_write_budgets_no_fallback :
    (∀ c v, (set_command c v).attempts = 2 ∧
      (set_command c v).value_on_err = none) ∧
    (∀ c, (do_command_action c).attempts = 2 ∧
      (do_command_action c).value_on_err = none) ∧
    (∀ pid opts, (set_program pid opts).attempts = 2 ∧
      (set_program pid opts).value_on_err = none) ∧
    (do_ai_update.attempts = 5 ∧ do_ai_update.value_on_err = none) ∧
    (do_hhg_update.attempts = 5 ∧ do_hhg_update.value_on_err = none) ∧
    (∀ (cfg : CmdCfg) (resps : Nat → DeviceResp), cfg.value_on_err = none →
      (∀ j, caughtFailure cfg (resps j)) →
      ∃ e, (runCommand cfg resps).result = .error e) := by
  refine ⟨fun c v => ⟨rfl, rfl⟩, fun c => ⟨rfl, rfl⟩, fun pid opts => ⟨rfl, rfl⟩,
    ⟨rfl, rfl⟩, ⟨rfl, rfl⟩, ?_⟩
  intro cfg resps hnone hfail
  obtain ⟨n, e, sl, heq, hpos, hdisj⟩ :=
    commandLoop_all_fail cfg resps hfail cfg.attempts 0 cfg.retry_delay
      (.valueError "no attempts made") []
  exact ⟨e, by simp [runCommand, heq, hnone]⟩

/-- Claim C5 instantiated: a failing `setTemperature` write raises. -/
theorem claim_C5_witness :
    ((set_command "Temperature" "40").attempts = 2 ∧
      (set_command "Temperature" "40").value_on_err = none) ∧
    ∃ e, (runCommand (set_command "Temperature" "40") failResps).result =
      .error e := by
  have h := claim_C5_write_budgets_no_fallback
  exact ⟨h.1 "Temperature" "40",
    h.2.2.2.2.2 (set_command "Temperature" "40") failResps rfl
      (fun j => Or.inr (Or.inl rfl))⟩

/-- Claim C6: for the non-raw list-shaped command invocations of the api
(push notifications, category keys, command keys, programs, program ids), a
response whose body parses to JSON null yields the empty list instead of a
shape-validation error; the first conjunct is the executor-level quirk for
any configuration of that shape. -/
theorem claim_C6_null_body_as_empty_list (text value : String) (doe : Bool) :
    (∀ cfg : CmdCfg, cfg.raw = false → cfg.expected_type = some .list →
      cfg.reject_empty = false →
      once cfg.raw cfg.expected_type cfg.reject_empty (.reply 200 text .null) =
        .ok (.arr [])) ∧
    (runCommand (get_last_push_notifications doe)
      (fun _ => .reply 200 text .null)).result = .ok (.arr []) ∧
    (runCommand list_categories
      (fun _ => .reply 200 text .null)).result = .ok (.arr []) ∧
    (runCommand (list_commands value)
      (fun _ => .reply 200 text .null)).result = .ok (.arr []) ∧
    (runCommand get_program
      (fun _ => .reply 200 text .null)).result = .ok (.arr []) ∧
    (runCommand get_all_program_ids
      (fun _ => .reply 200 text .null)).result = .ok (.arr []) := by
  refine ⟨?_, rfl, rfl, rfl, rfl, rfl⟩
  intro cfg hraw hexp hrej
  rw [hraw, hexp, hrej]
  rfl

/-- Claim C6 instantiated: two of the list-shaped calls on a literal null
body. -/
theorem claim_C6_witness :
    (runCommand (get_last_push_notifications true)
      (fun _ => .reply 200 "null" .null)).result = .ok (.arr []) ∧
    (runCommand list_categories
      (fun _ => .reply 200 "null" .null)).result = .ok (.arr []) := by
  have h := claim_C6_null_body_as_empty_list "null" "x" true
  exact ⟨h.2.1, h.2.2.1⟩

/-! ### `Program.build` key partition -/

/-- A successful `dictLookup` witnesses key membership. -/
theorem dictLookup_some_mem {key : String} {d : List (String × JVal)} {v : JVal}
    (h : dictLookup key d = some v) : key ∈ dictKeys d := by
  induction d with
  | nil => simp [dictLookup] at h
  | cons p rest ih =>
    rw [dictLookup] at h
    by_cases hp : (p.1 == key) = true
    · have hkey : p.1 = key := by simpa using hp
      simp [dictKeys, hkey]
    · rw [if_neg hp] at h
      exact List.mem_cons_of_mem _ (ih h)

/-- A failed `dictLookup` witnesses key absence. -/
theorem dictLookup_none_not_mem {key : String} {d : List (String × JVal)}
    (h : dictLookup key d = none) : key ∉ dictKeys d := by
  induction d with
  | nil => simp [dictKeys]
  | cons p rest ih =>
    rw [dictLookup] at h
    by_cases hp : (p.1 == key) = true
    · rw [if_pos hp] at h
      exact absurd h (by simp)
    · rw [if_neg hp] at h
      have hne : p.1 ≠ key := by simpa using hp
      simp only [dictKeys, List.map_cons, List.mem_cons, not_or]
      exact ⟨fun heq => hne heq.symm, ih h⟩

/-- `extractInfo` moves exactly the listed keys that are present from
`options` to `info`, key-wise. -/
theorem extractInfo_keys (keys : List String) :
    ∀ (info options : List (String × JVal)) (a : String),
    (a ∈ dictKeys (extractInfo keys (info, options)).1 ↔
      a ∈ dictKeys info ∨ (a ∈ keys ∧ a ∈ dictKeys options)) ∧
    (a ∈ dictKeys (extractInfo keys (info, options)).2 ↔
      a ∈ dictKeys options ∧ a ∉ keys) := by
  induction keys with
  | nil =>
    intro info options a
    simp [extractInfo]
  | cons k keys ih =>
    intro info options a
    cases hlk : dictLookup k options with
    | none =>
      have hk : k ∉ dictKeys options := dictLookup_none_not_mem hlk
      have h := ih info options a
      simp only [extractInfo, hlk]
      constructor
      · rw [h.1]
        constructor
        · rintro (h1 | ⟨h2, h3⟩)
          · exact Or.inl h1
          · exact Or.inr ⟨List.mem_cons_of_mem _ h2, h3⟩
        · rintro (h1 | ⟨h2, h3⟩)
          · exact Or.inl h1
          · rcases List.mem_cons.mp h2 with rfl | h2
            · exact absurd h3 hk
            · exact Or.inr ⟨h2, h3⟩
      · rw [h.2]
        constructor
        · rintro ⟨h1, h2⟩
          refine ⟨h1, fun hmem => ?_⟩
          rcases List.mem_cons.mp hmem with rfl | hmem
          · exact hk h1
          · exact h2 hmem
        · rintro ⟨h1, h2⟩
          exact ⟨h1, fun hmem => h2 (List.mem_cons_of_mem _ hmem)⟩
    | some v =>
      have hk : k ∈ dictKeys options := dictLookup_some_mem hlk
      have h := ih (info ++ [(k, v)]) (dictDelete k options) a
      have hinfo : a ∈ dictKeys (info ++ [(k, v)]) ↔
          a ∈ dictKeys info ∨ a = k := by
        simp [dictKeys]
      have hdel : a ∈ dictKeys (dictDelete k options) ↔
          a ∈ dictKeys options ∧ a ≠ k := by
        simp only [dictKeys, dictDelete, List.mem_map, List.mem_filter,
          Bool.not_eq_true', beq_eq_false_iff_ne]
        constructor
        · rintro ⟨p, ⟨hp, hne⟩, rfl⟩
          exact ⟨⟨p, hp, rfl⟩, hne⟩
        · rintro ⟨⟨p, hp, rfl⟩, hne⟩
          exact ⟨p, ⟨hp, hne⟩, rfl⟩
      simp only [extractInfo, hlk]
      constructor
      · rw [h.1, hinfo, hdel]
        constructor
        · rintro ((h1 | rfl) | ⟨h2, h3, h4⟩)
          · exact Or.inl h1
          · exact Or.inr ⟨List.mem_cons_self _ _, hk⟩
          · exact Or.inr ⟨List.mem_cons_of_mem _ h2, h3⟩
        · rintro (h1 | ⟨h2, h3⟩)
          · exact Or.inl (Or.inl h1)
          · by_cases hak : a = k
            · exact Or.inl (Or.inr hak)
            · rcases List.mem_cons.mp h2 with rfl | h2
              · exact absurd rfl hak
              · exact Or.inr ⟨h2, h3, hak⟩
      · rw [h.2, hdel]
        constructor
        · rintro ⟨⟨h1, h2⟩, h3⟩
          refine ⟨h1, fun hmem => ?_⟩
          rcases List.mem_cons.mp hmem with rfl | hmem
          · exact h2 rfl
          · exact h3 hmem
        · rintro ⟨h1, h2⟩
          have hak : a ≠ k := fun hak => h2 (hak ▸ List.mem_cons_self k keys)
          exact ⟨⟨h1, hak⟩, fun hmem => h2 (List.mem_cons_of_mem _ hmem)⟩

/-- Claim C7: `Program.build` splits a flat dict along the fixed
`ProgramInfo` key set — `info` holds exactly the input keys in the set,
`options` exactly the remaining input keys; the two parts are key-disjoint
and together reproduce the input's key set. -/
theorem claim_C7_program_build_partition (raw : List (String × JVal))
    (a : String) :
    (a ∈ dictKeys (Program.build raw).info ↔
      a ∈ ProgramInfoKeys ∧ a ∈ dictKeys raw) ∧
    (a ∈ dictKeys (Program.build raw).options ↔
      a ∈ dictKeys raw ∧ a ∉ ProgramInfoKeys) ∧
    ¬(a ∈ dictKeys (Program.build raw).info ∧
      a ∈ dictKeys (Program.build raw).options) ∧
    (a ∈ dictKeys raw ↔
      a ∈ dictKeys (Program.build raw).info ∨
      a ∈ dictKeys (Program.build raw).options) := by
  have hI : (Program.build raw).info = (extractInfo ProgramInfoKeys ([], raw)).1 := rfl
  have hO : (Program.build raw).options = (extractInfo ProgramInfoKeys ([], raw)).2 := rfl
  rw [hI, hO]
  have h := extractInfo_keys ProgramInfoKeys [] raw a
  have h1 : a ∈ dictKeys (extractInfo ProgramInfoKeys ([], raw)).1 ↔
      a ∈ ProgramInfoKeys ∧ a ∈ dictKeys raw := by
    rw [h.1]
    simp [dictKeys]
  have h2 := h.2
  refine ⟨h1, h2, ?_, ?_⟩
  · rintro ⟨hi, ho⟩
    exact (h2.mp ho).2 (h1.mp hi).1
  · constructor
    · intro hraw
      by_cases hkey : a ∈ ProgramInfoKeys
      · exact Or.inl (h1.mpr ⟨hkey, hraw⟩)
      · exact Or.inr (h2.mpr ⟨hraw, hkey⟩)
    · rintro (hi | ho)
      · exact (h1.mp hi).2
      · exact (h2.mp ho).1

/-- Claim C7 instantiated on a concrete program object: `id` and `name` go
to `info`, `duration` stays in `options`. -/
theorem claim_C7_witness :
    dictKeys (Program.build [("id", JVal.num 50), ("name", .str "Eco"),
      ("duration", .obj [])]).info = ["id", "name"] ∧
    dictKeys (Program.build [("id", JVal.num 50), ("name", .str "Eco"),
      ("duration", .obj [])]).options = ["duration"] ∧
    ("duration" ∈ dictKeys (Program.build [("id", JVal.num 50),
        ("name", .str "Eco"), ("duration", .obj [])]).options ↔
      "duration" ∈ dictKeys [("id", JVal.num 50), ("name", .str "Eco"),
        ("duration", .obj [])] ∧ "duration" ∉ ProgramInfoKeys) :=
  ⟨rfl, rfl,
    (claim_C7_program_build_partition
      [("id", JVal.num 50), ("name", .str "Eco"), ("duration", .obj [])]
      "duration").2.1⟩

/-- Claim C8: `aggregate_state` completes the zh-mode fetch before any other
sub-fetch begins: its completion trace always starts with `zhMode` and is a
prefix of the fixed fetch order. -/
theorem claim_C8_zh_mode_first (env : FetchKind → Nat → DeviceResp)
    (default_on_error : Bool) :
    (aggregate_state env default_on_error).2.head? = some .zhMode ∧
    (aggregate_state env default_on_error).2 <+:
      [.zhMode, .deviceStatus, .pushNotifications, .ecoInfo] := by
  cases h1 : run_get_zh_mode true (env .zhMode) with
  | error e =>
    refine ⟨?_, ⟨[.deviceStatus, .pushNotifications, .ecoInfo], ?_⟩⟩ <;>
      simp [aggregate_state, h1]
  | ok zh =>
    cases h2 : (runCommand (get_device_status default_on_error)
        (env .deviceStatus)).result with
    | error e =>
      refine ⟨?_, ⟨[.pushNotifications, .ecoInfo], ?_⟩⟩ <;>
        simp [aggregate_state, h1, h2]
    | ok device =>
      cases h3 : (runCommand (get_last_push_notifications default_on_error)
          (env .pushNotifications)).result with
      | error e =>
        refine ⟨?_, ⟨[.ecoInfo], ?_⟩⟩ <;> simp [aggregate_state, h1, h2, h3]
      | ok notif =>
        cases h4 : (runCommand (get_eco_info default_on_error)
            (env .ecoInfo)).result with
        | error e =>
          refine ⟨?_, ⟨[], ?_⟩⟩ <;> simp [aggregate_state, h1, h2, h3, h4]
        | ok eco =>
          refine ⟨?_, ⟨[], ?_⟩⟩ <;> simp [aggregate_state, h1, h2, h3, h4]

/-- Claim C9: even with `default_on_error=True`, when the device replies
successfully with an object lacking the `value` key, `get_zh_mode` raises
`KeyError("value")` instead of returning the -1 default — the fallback only
guards the executor, not the unwrap performed afterwards. -/
theorem claim_C9_zh_mode_keyerror (fields : List (String × JVal)) (text : String)
    (h : dictLookup "value" fields = none) :
    run_get_zh_mode true (fun _ => .reply 200 text (.obj fields)) =
      .error (.keyError "value") := by
  have hrun : (runCommand (get_zh_mode true)
      (fun _ => .reply 200 text (.obj fields))).result = .ok (.obj fields) := rfl
  unfold run_get_zh_mode
  rw [hrun]
  simp [pyGetItem, h]

/-- Claim C9 instantiated: a successful reply `{"mode": 1}` without a
`value` key raises `KeyError`. -/
theorem claim_C9_witness :
    dictLookup "value" [("mode", JVal.num 1)] = none ∧
    run_get_zh_mode true (fun _ => .reply 200 "" (.obj [("mode", JVal.num 1)])) =
      .error (.keyError "value") :=
  ⟨rfl, claim_C9_zh_mode_keyerror [("mode", JVal.num 1)] "" rfl⟩

/-- Claim C10: the caller-supplied params dict is left unchanged by
`_command`: the prologue copies it into a fresh dict and adds the `command`
and cache-buster entries only to that copy. -/
theorem claim_C10_params_not_mutated (h : Heap) (paramsRef : Nat)
    (command : String) (now : Nat) (hr : paramsRef < h.next) :
    (commandParams h paramsRef command now).1.get paramsRef = h.get paramsRef ∧
    (commandParams h paramsRef command now).2 ≠ paramsRef := by
  have hne : paramsRef ≠ h.next := by omega
  constructor
  · simp [commandParams, Heap.alloc, Heap.write, Heap.get, hne]
  · simp only [commandParams, Heap.alloc]
    omega

/-- Claim C10 instantiated on a one-dict heap holding `{"value": "5"}`. -/
theorem claim_C10_witness :
    (0 : Nat) < ({ mem := fun _ => [("value", "5")], next := 1 } : Heap).next ∧
    (commandParams { mem := fun _ => [("value", "5")], next := 1 } 0
      "setTemperature" 1700000000).1.get 0 =
      ({ mem := fun _ => [("value", "5")], next := 1 } : Heap).get 0 ∧
    (commandParams { mem := fun _ => [("value", "5")], next := 1 } 0
      "setTemperature" 1700000000).2 ≠ 0 := by
  have h := claim_C10_params_not_mutated
    { mem := fun _ => [("value", "5")], next := 1 } 0 "setTemperature"
    1700000000 (by decide)
  exact ⟨by decide, h.1, h.2⟩

end VZug
